import Mathlib

/-!
Verification of the EFOS ingestion pipeline of the validcfdi repository.

The embedding follows the source files:
- `clean_csv.py` (Header Locator and field cleaning, class `CSVCleaner`),
- `efos_manager.py` (Change Detector, Fetcher retry loop, CSV Normalizer
  `parse_csv_data`, Batch Importer `import_efos_data`, orchestrator
  `update_efos_database`, lookup `check_rfc_in_efos`),
- `database.py` (models `EfosRecord` and `EfosMetadata`).

Modelling conventions:
- Python strings are Lean `String`s; byte content is modelled as the decoded
  list of lines (`Content`); the external `hashlib.sha256` is an abstract
  parameter `hash : Content → String`.
- `datetime.utcnow()` is modelled by two clock parameters `t_start` (the call
  at the top of `update_efos_database`) and `t_end` (every later call).
- The database session is modelled as a reliably functioning store
  (`DbState`); external HTTP effects (the two `get_file_metadata` probes and
  each `requests.get` download attempt) are supplied by an environment `Env`
  so that every possible outcome of the remote endpoint is quantified over.
- Python `dict`s with possibly missing keys are association lists
  (`CanonicalRecord`) or records of `Option`-wrapped fields (`MetaDict`,
  where the outer `Option` is key presence and the inner one a `None` value).
-/

namespace ValidCfdi

/-! ### Python string primitives used by the pipeline -/

/-- Whitespace characters recognised by Python `str.strip`/`str.split`
(ASCII repertoire, which is all the SAT data contains). -/
def isPySpace (c : Char) : Bool :=
  c = ' ' || c = '\t' || c = '\n' || c = '\r' || c = '\x0b' || c = '\x0c'

/-- `str.strip()` on a character list. -/
def pyStripChars (l : List Char) : List Char :=
  ((l.dropWhile isPySpace).reverse.dropWhile isPySpace).reverse

/-- `str.strip()`. -/
def pyStrip (s : String) : String := ⟨pyStripChars s.data⟩

/-- `str.lower()` restricted to the characters appearing in the EFOS data:
ASCII letters plus the accented Spanish vowels and enye. -/
def pyLowerChar (c : Char) : Char :=
  if 65 ≤ c.toNat && c.toNat ≤ 90 then Char.ofNat (c.toNat + 32)
  else if c = 'Á' then 'á' else if c = 'É' then 'é' else if c = 'Í' then 'í'
  else if c = 'Ó' then 'ó' else if c = 'Ú' then 'ú' else if c = 'Ñ' then 'ñ'
  else c

/-- `str.lower()`. -/
def pyLower (s : String) : String := ⟨s.data.map pyLowerChar⟩

/-- The accent folding of `clean_csv.py` line 70:
`replace('á','a')...replace('ñ','n')`. -/
def deAccentChar (c : Char) : Char :=
  if c = 'á' then 'a' else if c = 'é' then 'e' else if c = 'í' then 'i'
  else if c = 'ó' then 'o' else if c = 'ú' then 'u' else if c = 'ñ' then 'n'
  else c

/-- Accent folding over a whole string. -/
def deAccent (s : String) : String := ⟨s.data.map deAccentChar⟩

/-- Membership in the strip set of `field_lower.strip('"\'')`:
a double quote or an apostrophe (codepoint 39). -/
def isQuoteChar (c : Char) : Bool := c = '"' || c = Char.ofNat 39

/-- `str.strip('"\'')` of `clean_csv.py` line 69. -/
def stripQuoteChars (s : String) : String :=
  ⟨((s.data.dropWhile isQuoteChar).reverse.dropWhile isQuoteChar).reverse⟩

/-- Whether the second list is a leading segment of the first
(Python `str.startswith`). -/
def beginsWith : List Char → List Char → Bool
  | _, [] => true
  | [], _ :: _ => false
  | c :: cs, d :: ds => c = d && beginsWith cs ds

/-- Whether the needle occurs as a contiguous substring of the haystack
(Python `in` on strings). -/
def containsSub : List Char → List Char → Bool
  | [], needle => needle.isEmpty
  | c :: cs, needle => beginsWith (c :: cs) needle || containsSub cs needle

/-- Python `sub in hay` for strings. -/
def pyContains (hay sub : String) : Bool := containsSub hay.data sub.data

/-- Accumulator-based `str.split()` (split on whitespace runs, dropping empty
pieces). `cur` holds the current word reversed. -/
def pySplitWsAux : List Char → List Char → List (List Char)
  | [], cur => if cur = [] then [] else [cur.reverse]
  | c :: cs, cur =>
    if isPySpace c then
      if cur = [] then pySplitWsAux cs [] else cur.reverse :: pySplitWsAux cs []
    else pySplitWsAux cs (c :: cur)

/-- `str.split()` with no separator argument. -/
def pySplitWs (l : List Char) : List (List Char) := pySplitWsAux l []

/-- `' '.join(...)` over the split words. -/
def joinWords : List (List Char) → List Char
  | [] => []
  | [w] => w
  | w :: ws => w ++ ' ' :: joinWords ws

/-- Field cleanup of `clean_csv.py` line 215:
`' '.join(field.replace('\n', ' ').split())`. -/
def cleanField (f : String) : String :=
  ⟨joinWords (pySplitWs (f.data.map fun c => if c = '\n' then ' ' else c))⟩

/-- Digit-string reader for `int(...)`: decimal digits with single
underscores allowed between digits (CPython's grouping rule). -/
def pyIntGo : Nat → List Char → Option Nat
  | acc, [] => some acc
  | acc, c :: cs =>
    if c.isDigit then pyIntGo (acc * 10 + (c.toNat - 48)) cs
    else if c = '_' then
      match cs with
      | d :: _ => if d.isDigit then pyIntGo acc cs else none
      | [] => none
    else none

/-- The digit part of `int(...)` must start with a digit. -/
def pyIntStart : List Char → Option Nat
  | [] => none
  | c :: cs => if c.isDigit then pyIntGo 0 (c :: cs) else none

/-- Python `int(s)` on a string: strip whitespace, optional sign, decimal
digits; `none` models the raised `ValueError`. -/
def pyInt (s : String) : Option Int :=
  match pyStripChars s.data with
  | [] => none
  | c :: cs =>
    if c = '-' then (pyIntStart cs).map (fun n => -(n : Int))
    else if c = '+' then (pyIntStart cs).map (fun n => (n : Int))
    else (pyIntStart (c :: cs)).map (fun n => (n : Int))

/-! ### CSV line tokenizer

Models one row produced by `csv.reader` with delimiter `,` and quote `"`
(the non-strict CPython state machine: a closing quote followed by ordinary
characters falls back to an unquoted field). -/

inductive CsvState where
  | fieldStart
  | inField
  | inQuoted
  | quoteInQuoted
deriving Repr, DecidableEq

/-- One step per character; `cur` is the current field reversed, `acc` the
fields already finished. -/
def csvGo : List Char → CsvState → List Char → List String → List String
  | [], _, cur, acc => acc ++ [⟨cur.reverse⟩]
  | c :: cs, CsvState.fieldStart, cur, acc =>
    if c = '"' then csvGo cs CsvState.inQuoted cur acc
    else if c = ',' then csvGo cs CsvState.fieldStart [] (acc ++ [⟨cur.reverse⟩])
    else csvGo cs CsvState.inField (c :: cur) acc
  | c :: cs, CsvState.inField, cur, acc =>
    if c = ',' then csvGo cs CsvState.fieldStart [] (acc ++ [⟨cur.reverse⟩])
    else csvGo cs CsvState.inField (c :: cur) acc
  | c :: cs, CsvState.inQuoted, cur, acc =>
    if c = '"' then csvGo cs CsvState.quoteInQuoted cur acc
    else csvGo cs CsvState.inQuoted (c :: cur) acc
  | c :: cs, CsvState.quoteInQuoted, cur, acc =>
    if c = '"' then csvGo cs CsvState.inQuoted ('"' :: cur) acc
    else if c = ',' then csvGo cs CsvState.fieldStart [] (acc ++ [⟨cur.reverse⟩])
    else csvGo cs CsvState.inField (c :: cur) acc

/-- Split one CSV line into its fields. -/
def csvSplitRow (l : List Char) : List String := csvGo l CsvState.fieldStart [] []

/-- `next(csv.reader([line.strip()], ...))` in the header search of
`process_csv`: a blank (after strip) line yields no row at all
(the `StopIteration` is swallowed by the `except`). -/
def tokenizeLine (line : String) : Option (List String) :=
  let s := pyStrip line
  if s.data = [] then none else some (csvSplitRow s.data)

/-! ### Header Locator (`clean_csv.py`, class `CSVCleaner`) -/

/-- `DEFAULT_CONFIG["header_keywords"]` as a list (the Python set; the count
of distinct matches does not depend on iteration order). -/
def headerKeywords : List String :=
  ["no", "rfc", "nombre", "situación", "situacion", "fecha", "publicación",
   "publicacion", "sat", "dof", "contribuyente", "oficio", "definitivo",
   "presunto", "desvirtuado"]

/-- `DEFAULT_CONFIG["min_header_keywords_match"]`. -/
def minHeaderKeywordsMatch : Nat := 3

/-- `DEFAULT_CONFIG["max_preamble_lines"]`. -/
def maxPreambleLines : Nat := 30

/-- Normalisation of one field inside `is_likely_header`: strip, lower,
skip if blank, then strip surrounding quotes and fold accents. -/
def normalizeHeaderField (f : String) : Option String :=
  let fl := pyLower (pyStrip f)
  if fl = "" then none
  else some (deAccent (stripQuoteChars fl))

/-- Whether a keyword occurs inside a (normalised) field. -/
def fieldMatchesKeyword (kw : String) (f : String) : Bool :=
  match normalizeHeaderField f with
  | none => false
  | some fl => pyContains fl kw

/-- Size of the `found_keywords` set: distinct keywords appearing in some
field of the row. -/
def countHeaderKeywords (row : List String) : Nat :=
  (headerKeywords.filter fun kw => row.any (fieldMatchesKeyword kw)).length

/-- `row[0].strip().startswith(('#', '!', '%', '/', '*'))`. -/
def startsWithCommentChar (s : String) : Bool :=
  match s.data with
  | [] => false
  | c :: _ => c = '#' || c = '!' || c = '%' || c = '/' || c = '*'

/-- `CSVCleaner.is_likely_header` (`clean_csv.py` lines 41-76). -/
def isLikelyHeader (row : List String) : Bool :=
  match row with
  | [] => false
  | f0 :: rest =>
    if startsWithCommentChar (pyStrip f0) then false
    else if rest.length > 0 && rest.all (fun cell => pyStrip cell = "" || pyStrip cell = ",") then
      false
    else decide (minHeaderKeywordsMatch ≤ countHeaderKeywords row)

/-- The header-finding loop of `process_csv` (lines 167-177): first line
among the scan window whose tokenization qualifies. `i` is the zero-based
index of the head of the remaining list. -/
def findHeaderAux : Nat → List String → Option (Nat × List String)
  | _, [] => none
  | i, l :: ls =>
    match tokenizeLine l with
    | some row => if isLikelyHeader row then some (i, row) else findHeaderAux (i + 1) ls
    | none => findHeaderAux (i + 1) ls

/-- Header Locator: scan the first `max_preamble_lines` lines. -/
def findHeader (lines : List String) : Option (Nat × List String) :=
  findHeaderAux 0 (lines.take maxPreambleLines)

/-- Whether a single raw line would be accepted as the header row. -/
def lineQualifies (l : String) : Bool :=
  match tokenizeLine l with
  | some row => isLikelyHeader row
  | none => false

/-! ### Data-region cleaning (`process_csv` lines 196-221) -/

/-- Header fields are written as `field.replace('\n', ' ').strip()`
(line 193). -/
def cleanHeaderField (f : String) : String :=
  pyStrip ⟨f.data.map fun c => if c = '\n' then ' ' else c⟩

/-- Rows of the data region: each remaining line read by `csv.reader`
(blank lines yield no row). -/
def dataRowTokenize (l : String) : Option (List String) :=
  if l.data = [] then none else some (csvSplitRow l.data)

/-- Per-row filtering and field cleanup of the data region: drop empty rows
and `#`-comment rows, drop all-blank rows, clean every field of the rest. -/
def cleanDataRows (rows : List (List String)) : List (List String) :=
  rows.filterMap fun row =>
    match row with
    | [] => none
    | f0 :: _ =>
      if beginsWith (pyStrip f0).data ['#'] then none
      else if row.any (fun f => pyStrip f ≠ "") then some (row.map cleanField)
      else none

/-- `CSVCleaner.process_csv`: locate the header, fail when absent, else
return the cleaned header row and the cleaned data rows. -/
def processCsv (lines : List String) : Except String (List String × List (List String)) :=
  match findHeader lines with
  | none => Except.error "Error: Header row not found within the first 30 lines."
  | some (idx, headerRow) =>
    Except.ok (headerRow.map cleanHeaderField,
               cleanDataRows ((lines.drop (idx + 1)).filterMap dataRowTokenize))

/-- `clean_csv_data` of `efos_manager.py`: run the cleaning script; a
nonzero exit (header not found) becomes a raised `Exception`. -/
def cleanCsvData (lines : List String) : Except String (List String × List (List String)) :=
  match processCsv lines with
  | Except.error e => Except.error ("Failed to clean CSV: " ++ e)
  | Except.ok r => Except.ok r

/-! ### CSV Normalizer (`parse_csv_data`, `efos_manager.py` lines 335-430) -/

/-- Column-name normalisation of `parse_csv_data`: lowercase, spaces to
underscores, periods removed, then the table of special-case renames, each
ordered exactly as the `if`/`elif` chain in the source (lines 366-406). -/
def normalizeKey (k : String) : String :=
  let nk := ⟨((pyLower k).data.map fun c => if c = ' ' then '_' else c).filter fun c => c ≠ '.'⟩
  if nk = "no" then "numero"
  else if nk = "situación_del_contribuyente" then "situacion_contribuyente"
  else if beginsWith nk.data "número_y_fecha".data then
    if pyContains nk "presunción_sat" then "numero_fecha_oficio_global_presuncion_sat"
    else if pyContains nk "presunción_dof" then "numero_fecha_oficio_global_presuncion_dof"
    else if pyContains nk "desvirtuaron_sat" then
      "numero_fecha_oficio_global_contribuyentes_desvirtuaron_sat"
    else if pyContains nk "desvirtuaron_dof" then
      "numero_fecha_oficio_global_contribuyentes_desvirtuaron_dof"
    else if pyContains nk "definitivos_sat" then "numero_fecha_oficio_global_definitivos_sat"
    else if pyContains nk "definitivos_dof" then "numero_fecha_oficio_global_definitivos_dof"
    else if pyContains nk "sentencia_favorable_sat" then
      "numero_fecha_oficio_global_sentencia_favorable_sat"
    else if pyContains nk "sentencia_favorable_dof" then
      "numero_fecha_oficio_global_sentencia_favorable_dof"
    else nk
  else if beginsWith nk.data "publicación_".data then
    if pyContains nk "sat_presuntos" then "publicacion_pagina_sat_presuntos"
    else if pyContains nk "dof_presuntos" then "publicacion_dof_presuntos"
    else if pyContains nk "sat_desvirtuados" then "publicacion_pagina_sat_desvirtuados"
    else if pyContains nk "dof_desvirtuados" then "publicacion_dof_desvirtuados"
    else if pyContains nk "sat_definitivos" then "publicacion_pagina_sat_definitivos"
    else if pyContains nk "dof_definitivos" then "publicacion_dof_definitivos"
    else if pyContains nk "sat_sentencia_favorable" then
      "publicacion_pagina_sat_sentencia_favorable"
    else if pyContains nk "dof_sentencia_favorable" then
      "publicacion_dof_sentencia_favorable"
    else nk
  else nk

/-- A normalised row: the Python `dict` from canonical keys to the stored
value (`None` is `none`). -/
abbrev CanonicalRecord := List (String × Option String)

/-- First binding for a key; `none` means the key is absent. -/
def recFind : CanonicalRecord → String → Option (Option String)
  | [], _ => none
  | (k, v) :: rest, key => if k = key then some v else recFind rest key

/-- `dict` assignment: overwrite an existing binding or append a new one. -/
def recSet : CanonicalRecord → String → Option String → CanonicalRecord
  | [], k, v => [(k, v)]
  | (k0, v0) :: rest, k, v =>
    if k0 = k then (k0, v) :: rest else (k0, v0) :: recSet rest k v

/-- `record.get(key, default)`. -/
def recGetD (r : CanonicalRecord) (k : String) (dflt : Option String) : Option String :=
  match recFind r k with
  | none => dflt
  | some v => v

/-- Stored value of `parse_csv_data` line 409:
`value.strip() if value else None`. -/
def normVal (v : Option String) : Option String :=
  match v with
  | none => none
  | some s => if s = "" then none else some (pyStrip s)

/-- `csv.DictReader` pairing of header names with row fields: missing
trailing fields become `None` (`restval`), extra fields are keyed by `None`
and hence skipped by the `if key:` guard, so they are dropped here. -/
def zipPad : List String → List String → List (String × Option String)
  | [], _ => []
  | k :: ks, [] => (k, none) :: zipPad ks []
  | k :: ks, v :: vs => (k, some v) :: zipPad ks vs

/-- Normalisation of one `DictReader` row (the body of the `for row` loop). -/
def parseRow (hdr : List String) (row : List String) : CanonicalRecord :=
  (zipPad hdr row).foldl
    (fun acc kv =>
      if kv.1 = "" then acc else recSet acc (normalizeKey kv.1) (normVal kv.2))
    []

/-- `parse_csv_data`: every data row becomes a canonical record. -/
def parseCsvData (hdr : List String) (rows : List (List String)) : List CanonicalRecord :=
  rows.map (parseRow hdr)

/-! ### Reference table rows (`database.EfosRecord`, built in
`import_efos_data` lines 482-513) -/

/-- Dynamic value of the `numero` attribute: the Python object can carry an
`int`, `None`, or (when the dict value is a falsy string) the string itself. -/
inductive NumV where
  | intVal (n : Int)
  | strVal (s : String)
  | nullVal
deriving Repr, DecidableEq

/-- `database.EfosRecord` at the attribute level (the `id` and timestamp
columns are database-generated and carry no imported data). -/
structure EfosRecord where
  numero : NumV
  rfc : Option String
  nombre_contribuyente : Option String
  situacion_contribuyente : Option String
  numero_fecha_oficio_global_presuncion_sat : Option String
  publicacion_pagina_sat_presuntos : Option String
  numero_fecha_oficio_global_presuncion_dof : Option String
  publicacion_dof_presuntos : Option String
  numero_fecha_oficio_global_contribuyentes_desvirtuaron_sat : Option String
  publicacion_pagina_sat_desvirtuados : Option String
  numero_fecha_oficio_global_contribuyentes_desvirtuaron_dof : Option String
  publicacion_dof_desvirtuados : Option String
  numero_fecha_oficio_global_definitivos_sat : Option String
  publicacion_pagina_sat_definitivos : Option String
  numero_fecha_oficio_global_definitivos_dof : Option String
  publicacion_dof_definitivos : Option String
  numero_fecha_oficio_global_sentencia_favorable_sat : Option String
  publicacion_pagina_sat_sentencia_favorable : Option String
  numero_fecha_oficio_global_sentencia_favorable_dof : Option String
  publicacion_dof_sentencia_favorable : Option String
deriving Repr, DecidableEq

/-- Row construction of `import_efos_data` lines 482-513: the `numero`
coercion (`int(...)` on a truthy value, `None` on failure) followed by the
`EfosRecord(...)` keyword arguments. In the pure semantics this never
raises, so the surrounding per-record `try`/`except` has no failing path. -/
def buildEfosRecord (record : CanonicalRecord) : EfosRecord :=
  let numero :=
    match recFind record "numero" with
    | some (some s) =>
      if s = "" then NumV.strVal s
      else
        match pyInt s with
        | some n => NumV.intVal n
        | none => NumV.nullVal
    | some none => NumV.nullVal
    | none => NumV.nullVal
  { numero := numero
    rfc := recGetD record "rfc" (some "")
    nombre_contribuyente := recGetD record "nombre_del_contribuyente" (some "")
    situacion_contribuyente := recGetD record "situacion_contribuyente" none
    numero_fecha_oficio_global_presuncion_sat :=
      recGetD record "numero_fecha_oficio_global_presuncion_sat" none
    publicacion_pagina_sat_presuntos := recGetD record "publicacion_pagina_sat_presuntos" none
    numero_fecha_oficio_global_presuncion_dof :=
      recGetD record "numero_fecha_oficio_global_presuncion_dof" none
    publicacion_dof_presuntos := recGetD record "publicacion_dof_presuntos" none
    numero_fecha_oficio_global_contribuyentes_desvirtuaron_sat :=
      recGetD record "numero_fecha_oficio_global_contribuyentes_desvirtuaron_sat" none
    publicacion_pagina_sat_desvirtuados :=
      recGetD record "publicacion_pagina_sat_desvirtuados" none
    numero_fecha_oficio_global_contribuyentes_desvirtuaron_dof :=
      recGetD record "numero_fecha_oficio_global_contribuyentes_desvirtuaron_dof" none
    publicacion_dof_desvirtuados := recGetD record "publicacion_dof_desvirtuados" none
    numero_fecha_oficio_global_definitivos_sat :=
      recGetD record "numero_fecha_oficio_global_definitivos_sat" none
    publicacion_pagina_sat_definitivos :=
      recGetD record "publicacion_pagina_sat_definitivos" none
    numero_fecha_oficio_global_definitivos_dof :=
      recGetD record "numero_fecha_oficio_global_definitivos_dof" none
    publicacion_dof_definitivos := recGetD record "publicacion_dof_definitivos" none
    numero_fecha_oficio_global_sentencia_favorable_sat :=
      recGetD record "numero_fecha_oficio_global_sentencia_favorable_sat" none
    publicacion_pagina_sat_sentencia_favorable :=
      recGetD record "publicacion_pagina_sat_sentencia_favorable" none
    numero_fecha_oficio_global_sentencia_favorable_dof :=
      recGetD record "numero_fecha_oficio_global_sentencia_favorable_dof" none
    publicacion_dof_sentencia_favorable :=
      recGetD record "publicacion_dof_sentencia_favorable" none }

/-! ### Persistent state (`database.EfosMetadata` and the records table) -/

/-- The singleton `EfosMetadata` row. Timestamps are clock readings
(`Nat`). -/
structure MetaRecord where
  etag : Option String := none
  last_modified : Option String := none
  content_length : Option String := none
  content_type : Option String := none
  content_hash : Option String := none
  error_message : Option String := none
  last_updated : Nat := 0
  last_checked : Nat := 0
deriving Repr, DecidableEq

/-- The database as seen by the pipeline: the EFOS reference table plus the
(zero-or-one-row) metadata table. -/
structure DbState where
  efos_records : List EfosRecord := []
  meta_record : Option MetaRecord := none
deriving Repr, DecidableEq

/-- Downloaded content, modelled as the decoded lines of the CSV file. -/
abbrev Content := List String

/-- Python truthiness of an optional string (`None` and `""` are falsy). -/
def pyTruthy : Option String → Bool
  | some s => s != ""
  | none => false

/-- The metadata `dict` passed around by `get_file_metadata`,
`has_file_changed` and `save_metadata`: the outer `Option` on the header
fields records key presence (`{}` is all-`none`), the inner one a `None`
value; `content_hash`, when the key is present, always holds a string. -/
structure MetaDict where
  etag : Option (Option String) := none
  last_modified : Option (Option String) := none
  content_length : Option (Option String) := none
  content_type : Option (Option String) := none
  content_hash : Option String := none
deriving Repr, DecidableEq

/-- Truthiness of `metadata.get(key)` for the header fields. -/
def truthyD (x : Option (Option String)) : Bool := pyTruthy (x.getD none)

/-- Result of one successful `get_file_metadata` probe (the HTTP headers;
`checked_at` is never read downstream and is omitted). -/
structure RemoteMeta where
  etag : Option String := none
  last_modified : Option String := none
  content_length : Option String := none
  content_type : Option String := none
deriving Repr, DecidableEq

/-- The dict built by `get_file_metadata` from the response headers. -/
def fromProbe (rm : RemoteMeta) : MetaDict :=
  { etag := some rm.etag
    last_modified := some rm.last_modified
    content_length := some rm.content_length
    content_type := some rm.content_type
    content_hash := none }

/-- `remote_metadata["content_hash"] = calculate_file_hash(content)` when
content bytes are at hand. -/
def withHash (hash : Content → String) (d : MetaDict) (content : Option Content) : MetaDict :=
  match content with
  | some c => { d with content_hash := some (hash c) }
  | none => d

/-- `has_file_changed` (`efos_manager.py` lines 95-159). The `probe`
argument is the outcome of the inner `get_file_metadata()` call; a raised
probe is caught by the outer `except`, which returns `(True, {})`. -/
def hasFileChanged (hash : Content → String) (probe : Except String RemoteMeta)
    (stored : Option MetaRecord) (content : Option Content) : Bool × MetaDict :=
  match probe with
  | Except.error _ => (true, {})
  | Except.ok rm =>
    match stored with
    | none => (true, withHash hash (fromProbe rm) content)
    | some mr =>
      let d := fromProbe rm
      if pyTruthy rm.etag ∧ pyTruthy mr.etag ∧ rm.etag ≠ mr.etag then
        (true, withHash hash d content)
      else if pyTruthy rm.last_modified ∧ pyTruthy mr.last_modified
          ∧ rm.last_modified ≠ mr.last_modified then
        (true, withHash hash d content)
      else
        match content with
        | some c =>
          let h := hash c
          let d2 := { d with content_hash := some h }
          if pyTruthy mr.content_hash = false ∨ some h ≠ mr.content_hash then (true, d2)
          else (false, d2)
        | none => (false, d)

/-- `save_metadata` (`efos_manager.py` lines 161-203): create or update the
singleton row; `last_updated` is refreshed exactly when the dict carries a
truthy `etag`, `last_modified`, or `content_hash`; `last_checked` always. -/
def saveMetadata (now : Nat) (db : DbState) (d : MetaDict) : DbState :=
  match db.meta_record with
  | none =>
    { db with meta_record := some {
        etag := d.etag.getD none
        last_modified := d.last_modified.getD none
        content_length := d.content_length.getD none
        content_type := d.content_type.getD none
        content_hash := d.content_hash
        error_message := none
        last_updated := now
        last_checked := now } }
  | some mr =>
    { db with meta_record := some {
        etag := d.etag.getD mr.etag
        last_modified := d.last_modified.getD mr.last_modified
        content_length := d.content_length.getD mr.content_length
        content_type := d.content_type.getD mr.content_type
        content_hash :=
          match d.content_hash with
          | none => mr.content_hash
          | some h => some h
        error_message := mr.error_message
        last_updated :=
          if truthyD d.etag || truthyD d.last_modified || pyTruthy d.content_hash then now
          else mr.last_updated
        last_checked := now } }

/-! ### Batch Importer (`import_efos_data`, `efos_manager.py` lines 446-561) -/

/-- `EFOS_IMPORT_BATCH_SIZE` default. -/
def IMPORT_BATCH_SIZE : Nat := 1000

/-- `chunk_records` with explicit fuel (the list length) so the definition
is structurally recursive and kernel-reducible. -/
def chunkGo (n : Nat) : Nat → List CanonicalRecord → List (List CanonicalRecord)
  | _, [] => []
  | 0, _ :: _ => []
  | fuel + 1, x :: xs => (x :: xs).take n :: chunkGo n fuel ((x :: xs).drop n)

/-- `chunk_records(records, chunk_size)`. -/
def chunkRecords (records : List CanonicalRecord) (n : Nat) : List (List CanonicalRecord) :=
  chunkGo n records.length records

/-- `import_efos_data`: delete every existing row, then insert the rows
built from each batch, committing per batch and accumulating the count.
The database is modelled as functioning, and row construction is total, so
the per-record and per-batch `except` branches have no failing path; the
`check_database_size` call only logs and is a no-op here. -/
def importEfosData (db : DbState) (records : List CanonicalRecord) : DbState × Nat :=
  let emptied : DbState := { db with efos_records := [] }
  (chunkRecords records IMPORT_BATCH_SIZE).foldl
    (fun st chunk =>
      let objs := chunk.map buildEfosRecord
      ({ st.1 with efos_records := st.1.efos_records ++ objs }, st.2 + objs.length))
    (emptied, 0)

/-! ### Fetcher (`download_efos_csv`, `efos_manager.py` lines 205-263) -/

/-- `EFOS_MAX_RETRIES` default. -/
def MAX_RETRIES : Nat := 3

/-- `EFOS_RETRY_BACKOFF_SECONDS` default. -/
def RETRY_BACKOFF : Nat := 5

/-- The `while retry_count < MAX_RETRIES` loop of `download_efos_csv`.
`att i` is the outcome of the `(i+1)`-st HTTP attempt (`Except.error` is a
raised `requests.RequestException`); `attempts` counts attempts made so far
and `sleeps` the `time.sleep` durations taken, in order. The fuel equals
the remaining permitted attempts; fuel `0` is the loop guard failing
(with the default configuration this is unreachable before a return). -/
def downloadGo (att : Nat → Except String Content) (maxR backoff : Nat) :
    Nat → Nat → List Nat → Except String Content × Nat × List Nat
  | 0, attempts, sleeps => (Except.error "download retry loop exhausted", attempts, sleeps)
  | fuel + 1, attempts, sleeps =>
    match att attempts with
    | Except.ok c => (Except.ok c, attempts + 1, sleeps)
    | Except.error e =>
      if attempts + 1 < maxR then
        downloadGo att maxR backoff fuel (attempts + 1) (sleeps ++ [backoff * (attempts + 1)])
      else
        (Except.error ("Failed to download EFOS CSV after " ++ toString maxR
           ++ " attempts: " ++ e),
         attempts + 1, sleeps)

/-- `download_efos_csv` under the default configuration: up to
`MAX_RETRIES` attempts with linear backoff, then a terminal raise. The
returned triple is (outcome, attempts made, sleeps taken). -/
def downloadEfosCsv (att : Nat → Except String Content) :
    Except String Content × Nat × List Nat :=
  downloadGo att MAX_RETRIES RETRY_BACKOFF MAX_RETRIES 0 []

/-! ### Pipeline Orchestrator (`update_efos_database`,
`efos_manager.py` lines 598-745) -/

/-- Outcomes of the external HTTP effects of one run: the
`get_file_metadata` probe at the top of the orchestrator, the probe made
inside `has_file_changed`, and each download attempt of the Fetcher. -/
structure Env where
  head_probe1 : Except String RemoteMeta
  head_probe2 : Except String RemoteMeta
  download_attempt : Nat → Except String Content

/-- The result `dict` returned by `update_efos_database`; `none` fields
model keys absent on the given path. -/
structure RunResult where
  status : String
  message : Option String := none
  records_processed : Option Nat := none
  records_imported : Option Nat := none
  processing_time_seconds : Option Nat := none
  timestamp : Option Nat := none
  error_message : Option String := none
deriving Repr, DecidableEq

/-- The `error_result` dict of the outer `except` handler (lines 737-742):
the exception message, never a stack trace (the traceback is only logged). -/
def errorResult (e : String) (t_start t_end : Nat) : RunResult :=
  { status := "error"
    error_message := some e
    processing_time_seconds := some (t_end - t_start)
    timestamp := some t_end }

/-- The ETag short-circuit (lines 617-644): probe the remote metadata and,
when a stored row exists with the same truthy ETag, refresh `last_checked`
only and return `unchanged` without downloading; any exception here is
swallowed (`none`) and the run proceeds to the full download. -/
def etagShortCircuit (env : Env) (db : DbState) (t_start t_end : Nat) :
    Option (DbState × RunResult) :=
  match env.head_probe1 with
  | Except.error _ => none
  | Except.ok rm =>
    match db.meta_record with
    | none => none
    | some mr =>
      if pyTruthy rm.etag ∧ mr.etag = rm.etag then
        some ({ db with meta_record := some { mr with last_checked := t_end } },
          { status := "unchanged"
            message := some "EFOS file has not changed since last update (based on ETag)"
            processing_time_seconds := some (t_end - t_start)
            timestamp := some t_end })
      else none

/-- `update_efos_database`: the full ingestion run. Every raise inside the
body is converted by the outer handler into an `error` result, so the
function is total; `records_processed` on the success path is the literal
`0` branch of `len(records) if 'records' in locals() else 0`, because
`del records` (line 706) removes the name before the result is built. -/
def updateEfosDatabase (hash : Content → String) (t_start t_end : Nat) (env : Env)
    (db : DbState) : DbState × RunResult :=
  match etagShortCircuit env db t_start t_end with
  | some out => out
  | none =>
    match (downloadEfosCsv env.download_attempt).1 with
    | Except.error e => (db, errorResult e t_start t_end)
    | Except.ok content =>
      let hd := hasFileChanged hash env.head_probe2 db.meta_record (some content)
      if hd.1 then
        match cleanCsvData content with
        | Except.error e =>
          (db, errorResult ("Failed to clean CSV data: " ++ e) t_start t_end)
        | Except.ok cleaned =>
          let records := parseCsvData cleaned.1 cleaned.2
          let imported := importEfosData db records
          (saveMetadata t_end imported.1 hd.2,
           { status := "success"
             records_processed := some 0
             records_imported := some imported.2
             processing_time_seconds := some (t_end - t_start)
             timestamp := some t_end })
      else
        (saveMetadata t_end db hd.2,
         { status := "unchanged"
           message := some "EFOS file has not changed since last update"
           processing_time_seconds := some (t_end - t_start)
           timestamp := some t_end })

/-! ### Lookup (`check_rfc_in_efos`, `efos_manager.py` lines 747-780) -/

/-- The dictionary built from a matching row. -/
structure EfosStatus where
  rfc : Option String
  nombre_contribuyente : Option String
  situacion_contribuyente : Option String
  publicacion_sat_presuntos : Option String
  publicacion_dof_presuntos : Option String
  publicacion_sat_definitivos : Option String
  publicacion_dof_definitivos : Option String
  publicacion_sat_sentencia_favorable : Option String
  publicacion_dof_sentencia_favorable : Option String
deriving Repr, DecidableEq

/-- `check_rfc_in_efos`: `queryFault` carries the message of a database
exception, which the handler converts to `None` — exactly the value
returned for a missing row. -/
def checkRfcInEfos (db : DbState) (queryFault : Option String) (rfc : String) :
    Option EfosStatus :=
  match queryFault with
  | some _ => none
  | none =>
    match db.efos_records.find? (fun r => decide (r.rfc = some rfc)) with
    | none => none
    | some r => some
      { rfc := r.rfc
        nombre_contribuyente := r.nombre_contribuyente
        situacion_contribuyente := r.situacion_contribuyente
        publicacion_sat_presuntos := r.publicacion_pagina_sat_presuntos
        publicacion_dof_presuntos := r.publicacion_dof_presuntos
        publicacion_sat_definitivos := r.publicacion_pagina_sat_definitivos
        publicacion_dof_definitivos := r.publicacion_dof_definitivos
        publicacion_sat_sentencia_favorable := r.publicacion_pagina_sat_sentencia_favorable
        publicacion_dof_sentencia_favorable := r.publicacion_dof_sentencia_favorable }

/-! ### Concrete fixtures used by witnesses and counterexamples -/

/-- An abstract-but-concrete stand-in for `hashlib.sha256(...).hexdigest()`. -/
def exHash : Content → String := fun _ => "hash-a"

/-- A downloaded CSV in the source's real shape: a free-text preamble
followed by the tabular header and two data rows (the spec's scenario). -/
def exampleContent : Content :=
  ["Listado de contribuyentes articulo 69-B",
   "Corte a la fecha indicada",
   "Emitido por el organo competente",
   "No,RFC,Nombre del Contribuyente,Situación del Contribuyente",
   "1,AAA010101AAA,EMPRESA UNO,Definitivo",
   "2,BBB020202BB2,EMPRESA DOS,Presunto"]

/-- The cleaned form of `exampleContent`. -/
def exampleCleaned : List String × List (List String) :=
  (["No", "RFC", "Nombre del Contribuyente", "Situación del Contribuyente"],
   [["1", "AAA010101AAA", "EMPRESA UNO", "Definitivo"],
    ["2", "BBB020202BB2", "EMPRESA DOS", "Presunto"]])

/-- A stored metadata row from an earlier successful run. -/
def exampleMr : MetaRecord :=
  { etag := some "abc", content_hash := some "hash-a", last_updated := 0, last_checked := 0 }

/-- A database holding that metadata row. -/
def exampleDb : DbState := { meta_record := some exampleMr }

/-- An environment whose remote file has changed (fresh ETag) and whose
initial probe fails, forcing the full pipeline. -/
def exampleEnv : Env :=
  { head_probe1 := Except.error "metadata probe failed"
    head_probe2 := Except.ok { etag := some "W-2024-xyz" }
    download_attempt := fun _ => Except.ok exampleContent }

/-- An environment in which every remote interaction fails. -/
def failEnv : Env :=
  { head_probe1 := Except.error "probe down"
    head_probe2 := Except.error "probe down"
    download_attempt := fun _ => Except.error "connection refused" }

/-- An environment whose remote content is unchanged (same ETag and hash as
`exampleMr`) but whose initial probe fails, so the file is downloaded and
the Change Detector decides on the downloaded body. -/
def unchangedEnv : Env :=
  { head_probe1 := Except.error "probe down"
    head_probe2 := Except.ok { etag := some "abc" }
    download_attempt := fun _ => Except.ok exampleContent }

/-- An environment whose initial probe returns the stored ETag, taking the
short-circuit without a download. -/
def shortCircuitEnv : Env :=
  { head_probe1 := Except.ok { etag := some "abc" }
    head_probe2 := Except.error "not probed"
    download_attempt := fun _ => Except.error "not downloaded" }

/-- Five free-text preamble lines, none of which reaches three keyword
matches. -/
def c3Preamble : List String :=
  ["Listado de contribuyentes articulo 69-B",
   "Corte a la fecha indicada",
   "Emitido por el organo competente",
   "Documento de caracter informativo",
   "Cifras actualizadas al cierre del mes"]

/-- The genuine header row line. -/
def c3HeaderLine : String := "No,RFC,Nombre del Contribuyente,Situación del Contribuyente"

/-- A 5-line preamble followed by the header and one data row. -/
def c3Input : List String :=
  c3Preamble ++ [c3HeaderLine, "1,AAA010101AAA,EMPRESA UNO,Definitivo"]

/-- A canonical record whose `numero` field is not numeric. -/
def c7Hdr : List String := ["No", "RFC"]

/-- Raw data rows (pre-cleaning) for the `numero` coercion check. -/
def c7Raws : List (List String) := [["abc", "XAXX010101000"]]

/-- The record the Normalizer yields for `c7Raws`. -/
def c7Record : CanonicalRecord := [("numero", some "abc"), ("rfc", some "XAXX010101000")]

/-- A reference table with one imported row, for the lookup claim. -/
def lookupDb : DbState :=
  { efos_records := [buildEfosRecord [("rfc", some "AAA010101AAA"),
      ("nombre_del_contribuyente", some "EMPRESA UNO")]] }

/-! ### Supporting lemmas -/

/-- Splitting into chunks and rejoining is the identity (positive chunk
size, enough fuel). -/
theorem chunkGo_join (n : Nat) :
    ∀ (fuel : Nat) (l : List CanonicalRecord), l.length ≤ fuel →
      (chunkGo (n + 1) fuel l).flatten = l := by
  intro fuel
  induction fuel with
  | zero =>
    intro l hl
    match l with
    | [] => rfl
  | succ fuel ih =>
    intro l hl
    match l with
    | [] => rfl
    | x :: xs =>
      simp only [chunkGo, List.flatten_cons]
      rw [ih ((x :: xs).drop (n + 1))]
      · exact List.take_append_drop (n + 1) (x :: xs)
      · simp only [List.length_drop, List.length_cons] at *
        omega

/-- `chunk_records` with the default batch size loses no record. -/
theorem chunkRecords_join (records : List CanonicalRecord) :
    (chunkRecords records IMPORT_BATCH_SIZE).flatten = records := by
  have h : IMPORT_BATCH_SIZE = 999 + 1 := rfl
  rw [chunkRecords, h]
  exact chunkGo_join 999 records.length records le_rfl

/-- The batch fold inserts exactly the rows built from the joined chunks. -/
theorem importFold_eq (chunks : List (List CanonicalRecord)) :
    ∀ (st : DbState × Nat),
      chunks.foldl
        (fun st chunk =>
          let objs := chunk.map buildEfosRecord
          ({ st.1 with efos_records := st.1.efos_records ++ objs }, st.2 + objs.length))
        st
      = ({ st.1 with efos_records := st.1.efos_records ++ chunks.flatten.map buildEfosRecord },
         st.2 + chunks.flatten.length) := by
  induction chunks with
  | nil => intro st; simp
  | cons c cs ih =>
    intro st
    rw [List.foldl_cons, ih]
    rw [Prod.ext_iff]
    constructor
    · simp [List.append_assoc]
    · simp only [List.flatten_cons, List.length_append, List.length_map]
      omega

/-- `import_efos_data` fully replaces the table with the built rows and
returns their count; the metadata row is untouched. -/
theorem importEfosData_eq (db : DbState) (records : List CanonicalRecord) :
    importEfosData db records
      = ({ db with efos_records := records.map buildEfosRecord }, records.length) := by
  unfold importEfosData
  rw [importFold_eq]
  simp [chunkRecords_join]

/-- `save_metadata` never touches the records table. -/
theorem saveMetadata_efos_records (now : Nat) (db : DbState) (d : MetaDict) :
    (saveMetadata now db d).efos_records = db.efos_records := by
  unfold saveMetadata
  cases db.meta_record <;> rfl

/-- `save_metadata` always produces a metadata row whose `last_checked` is
the present clock, and whose `last_updated` is the present clock exactly
when the dict carries a truthy `etag`, `last_modified` or `content_hash`
(on creation it is unconditionally the present clock). -/
theorem saveMetadata_meta (now : Nat) (db : DbState) (d : MetaDict) :
    ∃ mr, (saveMetadata now db d).meta_record = some mr ∧ mr.last_checked = now ∧
      ((truthyD d.etag || truthyD d.last_modified || pyTruthy d.content_hash) = true →
        mr.last_updated = now) := by
  unfold saveMetadata
  cases h : db.meta_record with
  | none => exact ⟨_, rfl, rfl, fun _ => rfl⟩
  | some mr =>
    refine ⟨_, rfl, rfl, fun hc => ?_⟩
    simp only [hc, if_true]

/-- A taken ETag short-circuit ends `unchanged`, keeps the records table,
and only refreshes `last_checked` on the metadata row. -/
theorem etagShortCircuit_spec (env : Env) (db : DbState) (ts te : Nat)
    (out : DbState × RunResult) (h : etagShortCircuit env db ts te = some out) :
    out.2.status = "unchanged" ∧ out.1.efos_records = db.efos_records ∧
      ∃ mr, db.meta_record = some mr ∧
        out.1.meta_record = some { mr with last_checked := te } := by
  unfold etagShortCircuit at h
  split at h
  · exact absurd h (by simp)
  · split at h
    · exact absurd h (by simp)
    · split at h
      · have hout := Option.some_inj.mp h
        subst hout
        rename_i mr _ _
        exact ⟨rfl, rfl, mr, by assumption, rfl⟩
      · exact absurd h (by simp)

/-- The short-circuit taken under its explicit preconditions. -/
theorem etagShortCircuit_taken (env : Env) (db : DbState) (ts te : Nat)
    (rm : RemoteMeta) (mr : MetaRecord) (hp : env.head_probe1 = Except.ok rm)
    (hm : db.meta_record = some mr)
    (hc : pyTruthy rm.etag ∧ mr.etag = rm.etag) :
    etagShortCircuit env db ts te
      = some ({ db with meta_record := some { mr with last_checked := te } },
        { status := "unchanged"
          message := some "EFOS file has not changed since last update (based on ETag)"
          processing_time_seconds := some (te - ts)
          timestamp := some te }) := by
  unfold etagShortCircuit
  rw [hp, hm]
  simp only [if_pos hc]

/-- The error carried out of the download retry loop is never the empty
string. -/
theorem downloadGo_error_ne_empty (att : Nat → Except String Content) (maxR backoff : Nat) :
    ∀ (fuel attempts : Nat) (sleeps : List Nat) (e : String),
      (downloadGo att maxR backoff fuel attempts sleeps).1 = Except.error e → e ≠ "" := by
  intro fuel
  induction fuel with
  | zero =>
    intro attempts sleeps e h
    simp only [downloadGo, Except.error.injEq] at h
    intro he
    rw [he] at h
    have hd := congrArg String.data h
    simp at hd
  | succ fuel ih =>
    intro attempts sleeps e h
    unfold downloadGo at h
    split at h
    · simp at h
    · split at h
      · exact ih _ _ _ h
      · simp only [Except.error.injEq] at h
        intro he
        rw [he] at h
        have hd := congrArg String.data h
        simp [String.data_append] at hd

/-- Appending to a nonempty string stays nonempty. -/
theorem append_ne_empty_left (a b : String) (ha : a.data ≠ []) : a ++ b ≠ "" := by
  intro h
  have hd := congrArg String.data h
  rw [String.data_append] at hd
  simp at hd
  exact ha hd.1

/-- Truthiness of a present string value. -/
theorem pyTruthy_some (s : String) : pyTruthy (some s) = (s != "") := rfl

/-- The header search returns nothing on a window with no qualifying line. -/
theorem findHeaderAux_none (ls : List String) :
    ∀ i, (∀ l ∈ ls, lineQualifies l = false) → findHeaderAux i ls = none := by
  induction ls with
  | nil => intro i _; rfl
  | cons l ls ih =>
    intro i h
    have hl := h l (List.mem_cons_self l ls)
    unfold lineQualifies at hl
    cases ht : tokenizeLine l with
    | none =>
      simp only [findHeaderAux, ht]
      exact ih (i + 1) fun x hx => h x (List.mem_cons_of_mem l hx)
    | some row =>
      simp only [ht] at hl
      simp only [findHeaderAux, ht, hl, Bool.false_eq_true, if_false]
      exact ih (i + 1) fun x hx => h x (List.mem_cons_of_mem l hx)

/-- A non-qualifying line is skipped by the header search. -/
theorem findHeaderAux_skip (l : String) (ls : List String) (i : Nat)
    (h : lineQualifies l = false) : findHeaderAux i (l :: ls) = findHeaderAux (i + 1) ls := by
  unfold lineQualifies at h
  cases ht : tokenizeLine l with
  | none => simp only [findHeaderAux, ht]
  | some row =>
    simp only [ht] at h
    simp only [findHeaderAux, ht, h, Bool.false_eq_true, if_false]

/-- A qualifying line stops the header search at its index. -/
theorem findHeaderAux_hit (l : String) (ls : List String) (i : Nat) (row : List String)
    (ht : tokenizeLine l = some row) (hq : isLikelyHeader row = true) :
    findHeaderAux i (l :: ls) = some (i, row) := by
  simp only [findHeaderAux, ht, hq, if_true]

/-- Words produced by `str.split()` are nonempty and whitespace-free. -/
theorem pySplitWsAux_words (l : List Char) :
    ∀ (cur : List Char), (∀ ch ∈ cur, ¬isPySpace ch = true) →
      ∀ w ∈ pySplitWsAux l cur, w ≠ [] ∧ ∀ ch ∈ w, ¬isPySpace ch = true := by
  induction l with
  | nil =>
    intro cur hcur w hw
    unfold pySplitWsAux at hw
    by_cases hc : cur = []
    · rw [if_pos hc] at hw
      simp at hw
    · rw [if_neg hc] at hw
      simp only [List.mem_singleton] at hw
      subst hw
      refine ⟨by simpa using hc, fun ch hch => hcur ch (List.mem_reverse.mp hch)⟩
  | cons c cs ih =>
    intro cur hcur w hw
    unfold pySplitWsAux at hw
    by_cases hsp : isPySpace c = true
    · rw [if_pos hsp] at hw
      by_cases hc : cur = []
      · rw [if_pos hc] at hw
        exact ih [] (by simp) w hw
      · rw [if_neg hc] at hw
        rcases List.mem_cons.mp hw with hcase | hcase
        · subst hcase
          refine ⟨by simpa using hc, fun ch hch => hcur ch (List.mem_reverse.mp hch)⟩
        · exact ih [] (by simp) w hcase
    · rw [if_neg hsp] at hw
      refine ih (c :: cur) ?_ w hw
      intro ch hch
      rcases List.mem_cons.mp hch with hcase | hcase
      · subst hcase; exact hsp
      · exact hcur ch hcase

/-- Joining a nonempty list of nonempty whitespace-free words yields a list
containing a non-whitespace character. -/
theorem joinWords_has_nonspace :
    ∀ (ws : List (List Char)), (∀ w ∈ ws, w ≠ [] ∧ ∀ ch ∈ w, ¬isPySpace ch = true) →
      ws ≠ [] → ∃ ch ∈ joinWords ws, ¬isPySpace ch = true
  | [], _, hne => absurd rfl hne
  | w :: ws, hws, _ => by
    obtain ⟨hwne, hwch⟩ := hws w (List.mem_cons_self w ws)
    obtain ⟨c0, hc0⟩ : ∃ c0, c0 ∈ w := by
      cases w with
      | nil => exact absurd rfl hwne
      | cons a as => exact ⟨a, List.mem_cons_self a as⟩
    refine ⟨c0, ?_, hwch c0 hc0⟩
    cases ws with
    | nil => simpa [joinWords] using hc0
    | cons w2 ws2 =>
      show c0 ∈ joinWords (w :: w2 :: ws2)
      unfold joinWords
      exact List.mem_append_left _ hc0

/-- If stripping a character list yields nothing, every character was
whitespace. -/
theorem pyStripChars_eq_nil (l : List Char) (h : pyStripChars l = []) :
    ∀ ch ∈ l, isPySpace ch = true := by
  unfold pyStripChars at h
  rw [List.reverse_eq_nil_iff, List.dropWhile_eq_nil_iff] at h
  intro ch hch
  have hsplit := List.takeWhile_append_dropWhile isPySpace l
  rw [← hsplit] at hch
  rcases List.mem_append.mp hch with hcase | hcase
  · exact List.mem_takeWhile_imp hcase
  · exact h ch (List.mem_reverse.mpr hcase)

/-- Stripping a nonempty cleaned field never empties it: the cleaned field
starts and ends with non-whitespace. -/
theorem pyStrip_cleanField (f : String) (hne : cleanField f ≠ "") :
    pyStrip (cleanField f) ≠ "" := by
  intro h
  have hdata : pyStripChars (cleanField f).data = [] := congrArg String.data h
  have hall := pyStripChars_eq_nil _ hdata
  have hne2 : (cleanField f).data ≠ [] := fun hc => hne (String.ext hc)
  have hwords : pySplitWs (f.data.map fun c => if c = '\n' then ' ' else c) ≠ [] := by
    intro hw
    apply hne2
    show joinWords (pySplitWs (f.data.map fun c => if c = '\n' then ' ' else c)) = []
    rw [hw]
    rfl
  obtain ⟨ch, hmem, hnsp⟩ :=
    joinWords_has_nonspace _ (pySplitWsAux_words _ [] (by simp)) hwords
  exact hnsp (hall ch hmem)

/-- Every member of an updated association list carries either the new
value or an old binding. -/
theorem recSet_mem (acc : CanonicalRecord) (k : String) (v : Option String) :
    ∀ q ∈ recSet acc k v, q.2 = v ∨ q ∈ acc := by
  induction acc with
  | nil =>
    intro q hq
    simp only [recSet, List.mem_singleton] at hq
    subst hq
    exact Or.inl rfl
  | cons p rest ih =>
    intro q hq
    unfold recSet at hq
    by_cases hk : p.1 = k
    · rw [if_pos hk] at hq
      rcases List.mem_cons.mp hq with hcase | hcase
      · subst hcase; exact Or.inl rfl
      · exact Or.inr (List.mem_cons_of_mem p hcase)
    · rw [if_neg hk] at hq
      rcases List.mem_cons.mp hq with hcase | hcase
      · subst hcase; exact Or.inr (List.mem_cons_self p rest)
      · rcases ih q hcase with hv | hmem
        · exact Or.inl hv
        · exact Or.inr (List.mem_cons_of_mem p hmem)

/-- A found binding is a member of the association list. -/
theorem recFind_mem (r : CanonicalRecord) (k : String) (v : Option String)
    (h : recFind r k = some v) : (k, v) ∈ r := by
  induction r with
  | nil => simp [recFind] at h
  | cons p rest ih =>
    unfold recFind at h
    by_cases hk : p.1 = k
    · rw [if_pos hk] at h
      have hv := Option.some_inj.mp h
      have : p = (k, v) := by
        cases p
        simp only at hk hv
        rw [hk, hv]
      rw [← this]
      exact List.mem_cons_self p rest
    · rw [if_neg hk] at h
      exact List.mem_cons_of_mem p (ih h)

/-- Values paired by the `DictReader` zip are either missing or fields of
the row. -/
theorem zipPad_mem :
    ∀ (ks vs : List String) (kv : String × Option String), kv ∈ zipPad ks vs →
      kv.2 = none ∨ ∃ v ∈ vs, kv.2 = some v := by
  intro ks
  induction ks with
  | nil => intro vs kv hkv; simp [zipPad] at hkv
  | cons k ks ih =>
    intro vs kv hkv
    cases vs with
    | nil =>
      unfold zipPad at hkv
      rcases List.mem_cons.mp hkv with hcase | hcase
      · subst hcase; exact Or.inl rfl
      · exact ih [] kv hcase
    | cons v vs =>
      unfold zipPad at hkv
      rcases List.mem_cons.mp hkv with hcase | hcase
      · subst hcase
        exact Or.inr ⟨v, List.mem_cons_self v vs, rfl⟩
      · rcases ih vs kv hcase with hnone | ⟨w, hw, hkv2⟩
        · exact Or.inl hnone
        · exact Or.inr ⟨w, List.mem_cons_of_mem v hw, hkv2⟩

/-- The row-normalisation fold only ever stores values satisfying the
invariant of its inputs. -/
theorem parseRow_fold_values (pairs : List (String × Option String)) :
    ∀ (acc : CanonicalRecord), (∀ q ∈ acc, q.2 ≠ some "") →
      (∀ kv ∈ pairs, normVal kv.2 ≠ some "") →
      ∀ q ∈ pairs.foldl
        (fun acc kv =>
          if kv.1 = "" then acc else recSet acc (normalizeKey kv.1) (normVal kv.2)) acc,
        q.2 ≠ some "" := by
  induction pairs with
  | nil => intro acc hacc _ q hq; exact hacc q hq
  | cons kv pairs ih =>
    intro acc hacc hval q hq
    simp only [List.foldl_cons] at hq
    by_cases hk : kv.1 = ""
    · rw [if_pos hk] at hq
      exact ih acc hacc (fun p hp => hval p (List.mem_cons_of_mem kv hp)) q hq
    · rw [if_neg hk] at hq
      refine ih _ ?_ (fun p hp => hval p (List.mem_cons_of_mem kv hp)) q hq
      intro p hp
      rcases recSet_mem acc (normalizeKey kv.1) (normVal kv.2) p hp with hv | hmem
      · rw [hv]
        exact hval kv (List.mem_cons_self kv pairs)
      · exact hacc p hmem

/-- A row surviving the data-region cleanup is the field-wise cleanup of
some raw row. -/
theorem cleanDataRows_mem (raws : List (List String)) (row : List String)
    (h : row ∈ cleanDataRows raws) : ∃ orig : List String, row = orig.map cleanField := by
  unfold cleanDataRows at h
  rcases List.mem_filterMap.mp h with ⟨a, _, ha⟩
  cases a with
  | nil => simp at ha
  | cons f0 rest =>
    by_cases h1 : beginsWith (pyStrip f0).data ['#'] = true
    · simp only [h1, if_true] at ha
      simp at ha
    · simp only [h1, if_false] at ha
      by_cases h2 : (f0 :: rest).any (fun f => pyStrip f ≠ "") = true
      · simp only [h2, if_true] at ha
        exact ⟨f0 :: rest, (Option.some_inj.mp ha).symm⟩
      · simp only [h2, if_false] at ha
        simp at ha

/-- No value stored by the Normalizer on a cleaned row is the empty string:
everything present was stripped from a nonempty cleaned field. -/
theorem parseCsvData_values (hdr : List String) (raws : List (List String))
    (r : CanonicalRecord) (hr : r ∈ parseCsvData hdr (cleanDataRows raws)) :
    ∀ q ∈ r, q.2 ≠ some "" := by
  rcases List.mem_map.mp hr with ⟨row, hrow, hpr⟩
  obtain ⟨orig, horig⟩ := cleanDataRows_mem raws row hrow
  subst hpr
  unfold parseRow
  refine parseRow_fold_values (zipPad hdr row) [] (by simp) ?_
  intro kv hkv
  rcases zipPad_mem hdr row kv hkv with hnone | ⟨v, hv, hkv2⟩
  · rw [hnone]
    simp [normVal]
  · rw [hkv2]
    simp only [normVal]
    by_cases hve : v = ""
    · simp [hve]
    · simp only [if_neg hve, ne_eq, Option.some_inj]
      subst horig
      rcases List.mem_map.mp hv with ⟨g, _, hg⟩
      subst hg
      exact pyStrip_cleanField g (by simpa using hve)


/-! ### The claims -/

/-- C1: every run of the pipeline ending with status `success` leaves the
reference table holding exactly the rows built from that run's normalized
records — the imported count equals the number of records the Normalizer
yielded (row construction is total in the pure semantics, so none fails) —
and nothing of the previous table generation survives, whatever the prior
database state was. -/
theorem claim_c1_full_replace (hash : Content → String) (t_start t_end : Nat) (env : Env)
    (db : DbState) (c : Content) (cleaned : List String × List (List String))
    (hdl : (downloadEfosCsv env.download_attempt).1 = Except.ok c)
    (hcl : cleanCsvData c = Except.ok cleaned) :
    (updateEfosDatabase hash t_start t_end env db).2.status = "success" →
      (updateEfosDatabase hash t_start t_end env db).1.efos_records
        = (parseCsvData cleaned.1 cleaned.2).map buildEfosRecord ∧
      (updateEfosDatabase hash t_start t_end env db).2.records_imported
        = some (parseCsvData cleaned.1 cleaned.2).length := by
  cases hsc : etagShortCircuit env db t_start t_end with
  | some out =>
    have hspec := etagShortCircuit_spec env db t_start t_end out hsc
    simp only [updateEfosDatabase, hsc]
    intro herr
    rw [hspec.1] at herr
    simp at herr
  | none =>
    cases hch : (hasFileChanged hash env.head_probe2 db.meta_record (some c)).1 with
    | false =>
      simp only [updateEfosDatabase, hsc, hdl, hch, Bool.false_eq_true, if_false]
      intro herr
      simp at herr
    | true =>
      simp only [updateEfosDatabase, hsc, hdl, hch, if_true, hcl]
      intro _
      constructor
      · rw [saveMetadata_efos_records, importEfosData_eq]
      · rw [importEfosData_eq]

/-- Witness for C1: the example run imports both records and fully
determines the table. -/
theorem claim_c1_witness :
    (updateEfosDatabase exHash 0 7 exampleEnv {}).1.efos_records
      = (parseCsvData exampleCleaned.1 exampleCleaned.2).map buildEfosRecord ∧
    (updateEfosDatabase exHash 0 7 exampleEnv {}).2.records_imported
      = some (parseCsvData exampleCleaned.1 exampleCleaned.2).length :=
  claim_c1_full_replace exHash 0 7 exampleEnv {} exampleContent exampleCleaned rfl rfl rfl

/-- C2: for every database state and every outcome of the remote
interactions, the orchestrator returns a result whose status is one of
`success`, `unchanged`, `error` (it is a total function, so no exception
escapes), and an `error` result always carries a nonempty human-readable
message (the exception text; the stack trace is only logged). -/
theorem claim_c2_result_contract (hash : Content → String) (t_start t_end : Nat)
    (env : Env) (db : DbState) :
    ((updateEfosDatabase hash t_start t_end env db).2.status = "success" ∨
     (updateEfosDatabase hash t_start t_end env db).2.status = "unchanged" ∨
     (updateEfosDatabase hash t_start t_end env db).2.status = "error") ∧
    ((updateEfosDatabase hash t_start t_end env db).2.status = "error" →
      ∃ m, (updateEfosDatabase hash t_start t_end env db).2.error_message = some m ∧
        m ≠ "") := by
  cases hsc : etagShortCircuit env db t_start t_end with
  | some out =>
    have hspec := etagShortCircuit_spec env db t_start t_end out hsc
    simp only [updateEfosDatabase, hsc]
    constructor
    · right; left; exact hspec.1
    · intro herr
      rw [hspec.1] at herr
      simp at herr
  | none =>
    cases hdl : (downloadEfosCsv env.download_attempt).1 with
    | error e =>
      simp only [updateEfosDatabase, hsc, hdl]
      refine ⟨by simp [errorResult], fun _ => ⟨e, by simp [errorResult], ?_⟩⟩
      exact downloadGo_error_ne_empty env.download_attempt MAX_RETRIES RETRY_BACKOFF
        MAX_RETRIES 0 [] e hdl
    | ok content =>
      cases hch : (hasFileChanged hash env.head_probe2 db.meta_record (some content)).1 with
      | false =>
        simp only [updateEfosDatabase, hsc, hdl, hch, Bool.false_eq_true, if_false]
        exact ⟨by simp, fun herr => by simp at herr⟩
      | true =>
        cases hcl : cleanCsvData content with
        | error e =>
          simp only [updateEfosDatabase, hsc, hdl, hch, if_true, hcl]
          refine ⟨by simp [errorResult], fun _ => ⟨"Failed to clean CSV data: " ++ e,
            by simp [errorResult], ?_⟩⟩
          exact append_ne_empty_left _ _ (by decide)
        | ok cleaned =>
          simp only [updateEfosDatabase, hsc, hdl, hch, if_true, hcl]
          exact ⟨by simp, fun herr => by simp at herr⟩

/-- Witness for C2: a run whose every remote interaction fails still
returns a structured `error` result with a nonempty message. -/
theorem claim_c2_witness :
    ((updateEfosDatabase exHash 0 7 failEnv exampleDb).2.status = "success" ∨
     (updateEfosDatabase exHash 0 7 failEnv exampleDb).2.status = "unchanged" ∨
     (updateEfosDatabase exHash 0 7 failEnv exampleDb).2.status = "error") ∧
    (∃ m, (updateEfosDatabase exHash 0 7 failEnv exampleDb).2.error_message = some m ∧
      m ≠ "") :=
  ⟨(claim_c2_result_contract exHash 0 7 failEnv exampleDb).1,
   (claim_c2_result_contract exHash 0 7 failEnv exampleDb).2 rfl⟩

/-- C3, counterexample: on an input whose first five lines are free text
(none qualifying) followed by the header row, the Header Locator returns
zero-based index 5 — not 4 as the claim states. -/
theorem claim_c3_counterexample :
    ((c3Input.take 5).all fun l => !lineQualifies l) = true ∧
    lineQualifies c3HeaderLine = true ∧
    findHeader c3Input
      = some (5, ["No", "RFC", "Nombre del Contribuyente", "Situación del Contribuyente"]) ∧
    (findHeader c3Input).map Prod.fst ≠ some 4 := by
  refine ⟨rfl, rfl, rfl, by decide⟩

/-- C3, amended: for every input consisting of a 5-line preamble of
non-qualifying lines followed by a header row whose tokenization reaches
the keyword threshold, the Header Locator returns zero-based index 5 (the
header's own index) together with the tokenized header row; and for every
input with no qualifying row within the 30-line scan window it signals
not-found rather than returning a guessed index. -/
theorem claim_c3_amended :
    (∀ (p0 p1 p2 p3 p4 hl : String) (rest : List String) (row : List String),
       lineQualifies p0 = false → lineQualifies p1 = false → lineQualifies p2 = false →
       lineQualifies p3 = false → lineQualifies p4 = false →
       tokenizeLine hl = some row → isLikelyHeader row = true →
       findHeader ([p0, p1, p2, p3, p4, hl] ++ rest) = some (5, row)) ∧
    (∀ lines : List String,
       (∀ l ∈ lines.take maxPreambleLines, lineQualifies l = false) →
       findHeader lines = none) := by
  constructor
  · intro p0 p1 p2 p3 p4 hl rest row h0 h1 h2 h3 h4 htok hq
    unfold findHeader
    rw [List.take_append_eq_append_take, List.take_of_length_le (by simp [maxPreambleLines])]
    simp only [List.cons_append, List.nil_append]
    rw [findHeaderAux_skip _ _ _ h0, findHeaderAux_skip _ _ _ h1, findHeaderAux_skip _ _ _ h2,
      findHeaderAux_skip _ _ _ h3, findHeaderAux_skip _ _ _ h4,
      findHeaderAux_hit _ _ _ row htok hq]
  · intro lines h
    unfold findHeader
    exact findHeaderAux_none _ 0 h

/-- Witness for C3 (amended): the concrete 5-line preamble input locates
the header at index 5, and a keyword-free input yields not-found. -/
theorem claim_c3_witness :
    findHeader (["Listado de contribuyentes articulo 69-B", "Corte a la fecha indicada",
        "Emitido por el organo competente", "Documento de caracter informativo",
        "Cifras actualizadas al cierre del mes", c3HeaderLine]
      ++ ["2,BBB020202BB2,EMPRESA DOS,Presunto"])
      = some (5, ["No", "RFC", "Nombre del Contribuyente", "Situación del Contribuyente"]) ∧
    findHeader ["sin encabezado", "texto libre"] = none :=
  ⟨claim_c3_amended.1 _ _ _ _ _ _ _ _ rfl rfl rfl rfl rfl rfl rfl,
   claim_c3_amended.2 _ (by decide)⟩

/-- C4: the Change Detector reports changed when the probe raises (fail
safe), changed when no prior metadata exists, changed when both ETags are
truthy and differ, and unchanged when the stored ETag equals the probed one
and no other compared field (Last-Modified, content hash) differs. -/
theorem claim_c4_change_detection :
    (∀ (hash : Content → String) (stored : Option MetaRecord) (content : Option Content)
       (e : String), (hasFileChanged hash (Except.error e) stored content).1 = true) ∧
    (∀ (hash : Content → String) (rm : RemoteMeta) (content : Option Content),
       (hasFileChanged hash (Except.ok rm) none content).1 = true) ∧
    (∀ (hash : Content → String) (rm : RemoteMeta) (mr : MetaRecord)
       (content : Option Content),
       pyTruthy rm.etag → pyTruthy mr.etag → rm.etag ≠ mr.etag →
       (hasFileChanged hash (Except.ok rm) (some mr) content).1 = true) ∧
    (∀ (hash : Content → String) (rm : RemoteMeta) (mr : MetaRecord)
       (content : Option Content),
       rm.etag = mr.etag →
       ¬(pyTruthy rm.last_modified ∧ pyTruthy mr.last_modified
           ∧ rm.last_modified ≠ mr.last_modified) →
       (∀ cb, content = some cb → mr.content_hash = some (hash cb) ∧ hash cb ≠ "") →
       (hasFileChanged hash (Except.ok rm) (some mr) content).1 = false) := by
  refine ⟨fun hash stored content e => rfl, fun hash rm content => rfl,
    fun hash rm mr content h1 h2 h3 => ?_, fun hash rm mr content he hlm hco => ?_⟩
  · simp [hasFileChanged, h1, h2, h3]
  · cases content with
    | none => simp [hasFileChanged, he, hlm]
    | some cb =>
      obtain ⟨hh, hne⟩ := hco cb rfl
      simp [hasFileChanged, he, hlm, hh, pyTruthy_some, hne]

/-- Witness for C4: the four detector cases at concrete inputs. -/
theorem claim_c4_witness :
    (hasFileChanged exHash (Except.error "probe down") (some exampleMr)
      (some exampleContent)).1 = true ∧
    (hasFileChanged exHash (Except.ok { etag := some "W-2024-xyz" }) none
      (some exampleContent)).1 = true ∧
    (hasFileChanged exHash (Except.ok { etag := some "xyz" }) (some exampleMr) none).1
      = true ∧
    (hasFileChanged exHash (Except.ok { etag := some "abc" }) (some exampleMr)
      (some exampleContent)).1 = false := by
  refine ⟨claim_c4_change_detection.1 exHash (some exampleMr) (some exampleContent)
      "probe down",
    claim_c4_change_detection.2.1 exHash _ (some exampleContent),
    claim_c4_change_detection.2.2.1 exHash _ exampleMr none (by decide) (by decide)
      (by decide),
    claim_c4_change_detection.2.2.2 exHash _ exampleMr (some exampleContent) rfl
      (by decide) ?_⟩
  intro cb hcb
  cases hcb
  exact ⟨rfl, by decide⟩

/-- C5: on the example success run the Normalizer yields 2 records and the
importer imports 2, yet the returned `records_processed` is 0 — because
`del records` runs before the result dict is built, the
`len(records) if 'records' in locals() else 0` guard always takes the 0
branch. The claim that `records_processed` equals the Normalizer's record
count is violated by the code at this input. -/
theorem claim_c5_records_processed_zero :
    (updateEfosDatabase exHash 0 7 exampleEnv {}).2.status = "success" ∧
    (parseCsvData exampleCleaned.1 exampleCleaned.2).length = 2 ∧
    (updateEfosDatabase exHash 0 7 exampleEnv {}).2.records_imported = some 2 ∧
    (updateEfosDatabase exHash 0 7 exampleEnv {}).1.efos_records.length = 2 ∧
    (updateEfosDatabase exHash 0 7 exampleEnv {}).2.records_processed = some 0 ∧
    (updateEfosDatabase exHash 0 7 exampleEnv {}).2.records_processed ≠ some 2 ∧
    (updateEfosDatabase exHash 0 7 exampleEnv {}).2.processing_time_seconds = some 7 ∧
    (updateEfosDatabase exHash 0 7 exampleEnv {}).2.timestamp = some 7 := by
  refine ⟨rfl, rfl, rfl, rfl, rfl, by decide, rfl, rfl⟩

/-- C6: with the default configuration (3 retries, 5-second linear
backoff) and a remote failing every attempt, the Fetcher makes exactly 3
attempts, sleeps 5 then 10 seconds between them, and raises a terminal
error; no fourth attempt happens. -/
theorem claim_c6_retry_bound (att : Nat → Except String Content) (e0 e1 e2 : String)
    (h0 : att 0 = Except.error e0) (h1 : att 1 = Except.error e1)
    (h2 : att 2 = Except.error e2) :
    downloadEfosCsv att
      = (Except.error ("Failed to download EFOS CSV after 3 attempts: " ++ e2), 3, [5, 10]) := by
  show downloadGo att 3 5 3 0 [] = _
  simp only [downloadGo, h0, h1, h2]
  norm_num
  rw [show (("Failed to download EFOS CSV after " ++ toString (3 : Nat)) ++ " attempts: ")
        = "Failed to download EFOS CSV after 3 attempts: " from by decide]

/-- Witness for C6: a remote refusing every connection. -/
theorem claim_c6_witness :
    downloadEfosCsv (fun _ => Except.error "connection timed out")
      = (Except.error ("Failed to download EFOS CSV after 3 attempts: "
          ++ "connection timed out"), 3, [5, 10]) :=
  claim_c6_retry_bound _ "connection timed out" "connection timed out" "connection timed out"
    rfl rfl rfl

/-- C7: for every record the Normalizer yields on cleaned data, the built
row's `numero` is an integer or null — never a non-numeric string; when
integer parsing fails the value becomes null; and the import processes the
whole record sequence (it is never aborted by a coercion failure). -/
theorem claim_c7_numero_int_or_null (hdr : List String) (raws : List (List String))
    (r : CanonicalRecord) (hr : r ∈ parseCsvData hdr (cleanDataRows raws)) :
    ((buildEfosRecord r).numero = NumV.nullVal ∨
      ∃ n, (buildEfosRecord r).numero = NumV.intVal n) ∧
    (∀ s, recFind r "numero" = some (some s) → pyInt s = none →
      (buildEfosRecord r).numero = NumV.nullVal) ∧
    (∀ (db : DbState) (records : List CanonicalRecord),
      (importEfosData db records).2 = records.length) := by
  have hval := parseCsvData_values hdr raws r hr
  have hnum : ∀ s, recFind r "numero" = some (some s) → ¬s = "" := by
    intro s hs hse
    subst hse
    exact hval ("numero", some "") (recFind_mem r "numero" (some "") hs) rfl
  refine ⟨?_, ?_, fun db records => by rw [importEfosData_eq]⟩
  · simp only [buildEfosRecord]
    cases hf : recFind r "numero" with
    | none => exact Or.inl rfl
    | some v =>
      cases v with
      | none => exact Or.inl rfl
      | some s =>
        simp only [if_neg (hnum s hf)]
        cases hi : pyInt s with
        | none => exact Or.inl rfl
        | some n => exact Or.inr ⟨n, rfl⟩
  · intro s hs hpi
    simp only [buildEfosRecord, hs, if_neg (hnum s hs), hpi]

/-- Witness for C7: the record built from a row whose `numero` field is
the non-numeric `"abc"` gets a null `numero`, and imports still count
every record. -/
theorem claim_c7_witness :
    (((buildEfosRecord c7Record).numero = NumV.nullVal ∨
      ∃ n, (buildEfosRecord c7Record).numero = NumV.intVal n) ∧
     (∀ s, recFind c7Record "numero" = some (some s) → pyInt s = none →
       (buildEfosRecord c7Record).numero = NumV.nullVal) ∧
     (∀ (db : DbState) (records : List CanonicalRecord),
       (importEfosData db records).2 = records.length)) :=
  claim_c7_numero_int_or_null c7Hdr c7Raws c7Record (by decide)

/-- C8, counterexample: a run whose download fails ends `error` and leaves
the metadata row (so `last_checked`) untouched, contradicting "every run
updates last_checked"; and an `unchanged` run that downloaded content
refreshes `last_updated`, contradicting "last_updated is modified only by
changed successful runs". -/
theorem claim_c8_counterexample :
    ((updateEfosDatabase exHash 0 7 failEnv exampleDb).2.status = "error" ∧
     (updateEfosDatabase exHash 0 7 failEnv exampleDb).1 = exampleDb ∧
     exampleDb.meta_record.map MetaRecord.last_checked = some 0) ∧
    ((updateEfosDatabase exHash 0 7 unchangedEnv exampleDb).2.status = "unchanged" ∧
     (updateEfosDatabase exHash 0 7 unchangedEnv exampleDb).1.meta_record.map
        MetaRecord.last_updated = some 7 ∧
     exampleDb.meta_record.map MetaRecord.last_updated = some 0) :=
  ⟨⟨rfl, rfl, rfl⟩, ⟨rfl, rfl, rfl⟩⟩

/-- C8, amended: runs ending `error` leave the whole database (hence all
metadata fields) untouched; every run that does not end `error` updates
`last_checked` to the run's end time; the ETag short-circuit path modifies
nothing but `last_checked`; and `last_updated` is refreshed by every run
that persists probed metadata carrying a truthy etag, last_modified or
content hash — including `unchanged` runs that performed a download, not
only changed successful ones. -/
theorem claim_c8_amended :
    (∀ (hash : Content → String) (ts te : Nat) (env : Env) (db : DbState),
       (updateEfosDatabase hash ts te env db).2.status = "error" →
       (updateEfosDatabase hash ts te env db).1 = db) ∧
    (∀ (hash : Content → String) (ts te : Nat) (env : Env) (db : DbState),
       (updateEfosDatabase hash ts te env db).2.status ≠ "error" →
       ∃ mr, (updateEfosDatabase hash ts te env db).1.meta_record = some mr ∧
         mr.last_checked = te) ∧
    (∀ (hash : Content → String) (ts te : Nat) (env : Env) (db : DbState)
       (rm : RemoteMeta) (mr : MetaRecord), env.head_probe1 = Except.ok rm →
       db.meta_record = some mr → pyTruthy rm.etag ∧ mr.etag = rm.etag →
       (updateEfosDatabase hash ts te env db).1
         = { db with meta_record := some { mr with last_checked := te } } ∧
       (updateEfosDatabase hash ts te env db).2.status = "unchanged") ∧
    (∀ (hash : Content → String) (ts te : Nat) (env : Env) (db : DbState) (c : Content),
       etagShortCircuit env db ts te = none →
       (downloadEfosCsv env.download_attempt).1 = Except.ok c →
       (hasFileChanged hash env.head_probe2 db.meta_record (some c)).1 = false →
       (truthyD (hasFileChanged hash env.head_probe2 db.meta_record (some c)).2.etag
         || truthyD (hasFileChanged hash env.head_probe2 db.meta_record (some c)).2.last_modified
         || pyTruthy (hasFileChanged hash env.head_probe2 db.meta_record (some c)).2.content_hash)
         = true →
       (updateEfosDatabase hash ts te env db).2.status = "unchanged" ∧
       ∃ mr, (updateEfosDatabase hash ts te env db).1.meta_record = some mr ∧
         mr.last_updated = te) := by
  refine ⟨?_, ?_, ?_, ?_⟩
  · intro hash ts te env db herr
    cases hsc : etagShortCircuit env db ts te with
    | some out =>
      have hspec := etagShortCircuit_spec env db ts te out hsc
      simp only [updateEfosDatabase, hsc] at herr
      rw [hspec.1] at herr
      simp at herr
    | none =>
      cases hdl : (downloadEfosCsv env.download_attempt).1 with
      | error e => simp only [updateEfosDatabase, hsc, hdl]
      | ok content =>
        cases hch : (hasFileChanged hash env.head_probe2 db.meta_record (some content)).1 with
        | false =>
          simp only [updateEfosDatabase, hsc, hdl, hch, Bool.false_eq_true, if_false] at herr
          simp at herr
        | true =>
          cases hcl : cleanCsvData content with
          | error e => simp only [updateEfosDatabase, hsc, hdl, hch, if_true, hcl]
          | ok cleaned =>
            simp only [updateEfosDatabase, hsc, hdl, hch, if_true, hcl] at herr
            simp at herr
  · intro hash ts te env db hne
    cases hsc : etagShortCircuit env db ts te with
    | some out =>
      obtain ⟨hst, hef, mr, hmr, hout⟩ := etagShortCircuit_spec env db ts te out hsc
      simp only [updateEfosDatabase, hsc]
      exact ⟨_, hout, rfl⟩
    | none =>
      cases hdl : (downloadEfosCsv env.download_attempt).1 with
      | error e =>
        simp only [updateEfosDatabase, hsc, hdl] at hne
        exact absurd rfl hne
      | ok content =>
        cases hch : (hasFileChanged hash env.head_probe2 db.meta_record (some content)).1 with
        | false =>
          simp only [updateEfosDatabase, hsc, hdl, hch, Bool.false_eq_true, if_false]
          obtain ⟨mr, hm, hlc, _⟩ := saveMetadata_meta te db
            (hasFileChanged hash env.head_probe2 db.meta_record (some content)).2
          exact ⟨mr, hm, hlc⟩
        | true =>
          cases hcl : cleanCsvData content with
          | error e =>
            simp only [updateEfosDatabase, hsc, hdl, hch, if_true, hcl] at hne
            exact absurd rfl hne
          | ok cleaned =>
            simp only [updateEfosDatabase, hsc, hdl, hch, if_true, hcl]
            obtain ⟨mr, hm, hlc, _⟩ := saveMetadata_meta te
              (importEfosData db (parseCsvData cleaned.1 cleaned.2)).1
              (hasFileChanged hash env.head_probe2 db.meta_record (some content)).2
            exact ⟨mr, hm, hlc⟩
  · intro hash ts te env db rm mr hp hm hc
    have hsc := etagShortCircuit_taken env db ts te rm mr hp hm hc
    simp only [updateEfosDatabase, hsc]
    exact ⟨by trivial, by trivial⟩
  · intro hash ts te env db c hsc hdl hch hcond
    simp only [updateEfosDatabase, hsc, hdl, hch, Bool.false_eq_true, if_false]
    obtain ⟨mr, hm, _, hlu⟩ := saveMetadata_meta te db
      (hasFileChanged hash env.head_probe2 db.meta_record (some c)).2
    exact ⟨by trivial, mr, hm, hlu hcond⟩

/-- Witness for C8 (amended): the four parts at concrete runs. -/
theorem claim_c8_witness :
    ((updateEfosDatabase exHash 0 7 failEnv exampleDb).1 = exampleDb) ∧
    (∃ mr, (updateEfosDatabase exHash 0 7 shortCircuitEnv exampleDb).1.meta_record
        = some mr ∧ mr.last_checked = 7) ∧
    ((updateEfosDatabase exHash 0 7 shortCircuitEnv exampleDb).1
        = { exampleDb with meta_record := some { exampleMr with last_checked := 7 } } ∧
     (updateEfosDatabase exHash 0 7 shortCircuitEnv exampleDb).2.status = "unchanged") ∧
    ((updateEfosDatabase exHash 0 7 unchangedEnv exampleDb).2.status = "unchanged" ∧
     ∃ mr, (updateEfosDatabase exHash 0 7 unchangedEnv exampleDb).1.meta_record = some mr ∧
       mr.last_updated = 7) :=
  ⟨claim_c8_amended.1 exHash 0 7 failEnv exampleDb rfl,
   claim_c8_amended.2.1 exHash 0 7 shortCircuitEnv exampleDb (by decide),
   claim_c8_amended.2.2.1 exHash 0 7 shortCircuitEnv exampleDb { etag := some "abc" }
     exampleMr rfl rfl ⟨by decide, rfl⟩,
   claim_c8_amended.2.2.2 exHash 0 7 unchangedEnv exampleDb exampleContent rfl rfl rfl rfl⟩

/-- C9: the Normalizer's column mapping sends
"Número y fecha de oficio global de presunción SAT" to
`numero_fecha_oficio_global_presuncion_sat` and "No" to `numero`. -/
theorem claim_c9_column_mapping :
    normalizeKey "Número y fecha de oficio global de presunción SAT"
      = "numero_fecha_oficio_global_presuncion_sat" ∧
    normalizeKey "No" = "numero" := ⟨rfl, rfl⟩

/-- C10: the lookup returns `none` both when the query raises and when no
row matches the RFC, so a caller cannot distinguish "not on the denylist"
from "lookup failed" — database errors make the check fail open. -/
theorem claim_c10_fail_open (db : DbState) (rfc e : String) :
    checkRfcInEfos db (some e) rfc = none ∧
    ((∀ r ∈ db.efos_records, r.rfc ≠ some rfc) → checkRfcInEfos db none rfc = none) := by
  constructor
  · rfl
  · intro h
    unfold checkRfcInEfos
    rw [List.find?_eq_none.mpr]
    intro r hr
    simp [h r hr]

/-- Witness for C10: against a populated table, a failed query and a
missing RFC are both `none`. -/
theorem claim_c10_witness :
    checkRfcInEfos lookupDb (some "database connection lost") "ZZZ010101ZZZ" = none ∧
    checkRfcInEfos lookupDb none "ZZZ010101ZZZ" = none :=
  ⟨(claim_c10_fail_open lookupDb "ZZZ010101ZZZ" "database connection lost").1,
   (claim_c10_fail_open lookupDb "ZZZ010101ZZZ" "database connection lost").2 (by decide)⟩

end ValidCfdi
